import Mathlib

/-!
Shallow embedding of the MoonTVPlus OpenList refresh pipeline
(src/lib/openlist-refresh.ts): the startOpenListRefresh entry point and the
performScan orchestrator (listing loop, diffing against the loaded MetaInfo,
per-folder TMDB resolution with season override, persistence).  The external
collaborators (remote lister, TMDB search client, season-details client,
key-value store, progress cache, task tracker) are modelled as oracles in an
environment record, and every call the orchestrator makes to a collaborator is
recorded in an event trace, so that claims about call order, absence of calls,
and counts can be stated and proved on the trace.
-/

namespace OpenListRefresh

/-- One item of a remote directory listing page: name and is_dir flag. -/
structure FItem where
  name : String
  is_dir : Bool
deriving DecidableEq, Repr

/-- Response of OpenListClient.listDirectory: code, data.total, data.content. -/
structure ListResp where
  code : Nat
  total : Nat
  content : List FItem
deriving DecidableEq, Repr

/-- Best-match record returned by searchTMDB, with the fields performScan
reads.  Fields that can be absent in JS are Option; JS truthiness (empty
string and null both falsy) is applied exactly where the source applies it. -/
structure TMDBResult where
  id : Nat
  title : Option String
  name : Option String
  poster_path : Option String
  release_date : Option String
  first_air_date : Option String
  overview : String
  vote_average : Int
  media_type : String
deriving DecidableEq, Repr

/-- Response of searchTMDB: code plus optional best match. -/
structure SearchResp where
  code : Nat
  result : Option TMDBResult
deriving DecidableEq, Repr

/-- Season record of getTVSeasonDetails. -/
structure SeasonRec where
  season_number : Nat
  name : String
  poster_path : Option String
  overview : String
  air_date : String
deriving DecidableEq, Repr

/-- Response of getTVSeasonDetails: code plus optional season. -/
structure SeasonResp where
  code : Nat
  season : Option SeasonRec
deriving DecidableEq, Repr

/-- Result of parseSeasonFromTitle (external pure parser; contract only). -/
structure SeasonInfo where
  cleanTitle : String
  seasonNumber : Option Nat
  year : Option Nat
deriving DecidableEq, Repr

/-- One entry of the persisted index (FolderInfo in the source). -/
structure FolderInfo where
  folderName : String
  tmdb_id : Nat
  title : String
  poster_path : Option String
  release_date : String
  overview : String
  vote_average : Int
  media_type : String
  last_updated : Nat
  failed : Bool
  season_number : Option Nat := none
  season_name : Option String := none
deriving DecidableEq, Repr

/-- The persisted index: folder key -> FolderInfo plus last_refresh.  A JS
object with string keys preserves insertion order, so it is modelled as an
association list (new keys are appended). -/
structure MetaInfo where
  folders : List (String × FolderInfo)
  last_refresh : Nat
deriving DecidableEq, Repr

/-- Observable effects of one scan, in the order the orchestrator performs
them: lister page fetches, task-tracker progress reports, TMDB search and
season calls, the fixed 300 ms rate-limit delay, the store write, cache
invalidation/repopulation, the admin-config save, and task completion or
failure. -/
inductive Event where
  | listPage (page : Nat)
  | progress (current : Nat) (total : Nat) (item : Option String)
  | searchCall (query : String) (year : Option Nat)
  | seasonCall (tmdbId : Nat) (seasonNumber : Nat)
  | delay
  | dbSet (mi : MetaInfo)
  | cacheInvalidate
  | cacheSet (mi : MetaInfo)
  | configSave
  | taskComplete (total newC existingC errorsC : Nat)
  | taskFail (msg : String)
deriving DecidableEq, Repr

/-- Final outcome of performScan, as observable through the task tracker. -/
inductive ScanResult where
  | completed (mi : MetaInfo) (total newC existingC errorsC : Nat)
  | failed (msg : String)
deriving DecidableEq, Repr

/-- The environment: the external collaborators of one scan, with the
per-scan constants (root path, api key, proxy, credentials) absorbed into
the oracles.  pages n is the lister response for page n; search q y is the
TMDB search for query q and optional year y (Except.error models a thrown
exception); seasonDetails id sn likewise; parseSeason is the pure title
parser; dbGet is the store read of the global metainfo key (Except.error
models a read failure, degraded to start-empty by the source); now is
Date.now. -/
structure Env where
  pages : Nat → ListResp
  search : String → Option Nat → Except String SearchResp
  seasonDetails : Nat → Nat → Except String SeasonResp
  parseSeason : String → SeasonInfo
  dbGet : Except String (Option MetaInfo)
  now : Nat

/-- JS a || b on strings: empty string is falsy. -/
def strOr (a b : String) : String := if a = "" then b else a

/-- A JS string field that may be undefined, read as a string ('' when
absent). -/
def optStr : Option String → String
  | none => ""
  | some s => s

/-- Mutable per-scan counters and index state of the resolution loop. -/
structure ScanState where
  folders : List (String × FolderInfo)
  existingKeys : List String
  newCount : Nat
  existingCount : Nat
  errorCount : Nat
deriving DecidableEq, Repr

/-- Modelled from the spec: generateFolderKey (from src/lib/crypto, not under
src/) derives a key deterministic in the folder name and guaranteed distinct
from everything in existingKeys, by appending a disambiguating suffix.  This
model appends one more '#' than the total length of all used keys, which is
provably not among them. -/
def freshKey (name : String) (used : List String) : String :=
  name ++ String.mk (List.replicate ((used.map String.length).sum + 1) '#')

/-- JS object write obj[k] = v on an association list: replace in place when
the key exists, append otherwise. -/
def insertAL (l : List (String × FolderInfo)) (k : String) (v : FolderInfo) :
    List (String × FolderInfo) :=
  if l.any (fun p => p.1 = k) then
    l.map (fun p => if p.1 = k then (k, v) else p)
  else l ++ [(k, v)]

/-- Lines 85-110 of the source: start empty when clearMetaInfo is set,
otherwise read the store; a missing value or a read/parse failure degrades
to an empty MetaInfo stamped with now. -/
def loadMetaInfo (env : Env) (clear : Bool) : MetaInfo :=
  if clear then { folders := [], last_refresh := env.now }
  else
    match env.dbGet with
    | Except.error _ => { folders := [], last_refresh := env.now }
    | Except.ok none => { folders := [], last_refresh := env.now }
    | Except.ok (some mi) => mi

/-- Lines 119-135 of the source: the paginated listing loop.  Fuel bounds the
number of page fetches; the loop itself has no bound, so exhausted fuel
(result none) models non-termination.  A page with code other than 200
aborts with the listing error; otherwise the page content is filtered to
directories and accumulated, and the loop ends once the accumulated count
reaches the page-reported total. -/
def listLoop (env : Env) : Nat → Nat → List FItem →
    List Event × Option (Except String (List FItem))
  | 0, _, _ => ([], none)
  | fuel + 1, page, acc =>
    let resp := env.pages page
    if resp.code ≠ 200 then
      ([Event.listPage page], some (Except.error ("OpenList 列表获取失败")))
    else
      let acc' := acc ++ resp.content.filter (fun it => it.is_dir)
      if resp.total ≤ acc'.length then
        ([Event.listPage page], some (Except.ok acc'))
      else
        let r := listLoop env fuel (page + 1) acc'
        (Event.listPage page :: r.1, r.2)

/-- The query string performScan passes to searchTMDB for a folder:
seasonInfo.cleanTitle || folder.name. -/
def searchArgsQ (env : Env) (name : String) : String :=
  strOr (env.parseSeason name).cleanTitle name

/-- The year hint performScan passes to searchTMDB: seasonInfo.year ||
undefined (0 is falsy in JS). -/
def searchArgsY (env : Env) (name : String) : Option Nat :=
  match (env.parseSeason name).year with
  | none => none
  | some y => if y = 0 then none else some y

/-- The failed placeholder entry written on a no-match search or a caught
exception (lines 232-243 and 250-261 of the source; both sites write the
same record). -/
def placeholderInfo (name : String) (now : Nat) : FolderInfo :=
  { folderName := name
  , tmdb_id := 0
  , title := name
  , poster_path := none
  , release_date := ""
  , overview := ""
  , vote_average := 0
  , media_type := "movie"
  , last_updated := now
  , failed := true }

/-- The entry built from a successful search result (lines 180-191). -/
def baseInfo (name : String) (r : TMDBResult) (now : Nat) : FolderInfo :=
  { folderName := name
  , tmdb_id := r.id
  , title := strOr (optStr r.title) (strOr (optStr r.name) name)
  , poster_path := r.poster_path
  , release_date := strOr (optStr r.release_date) (optStr r.first_air_date)
  , overview := r.overview
  , vote_average := r.vote_average
  , media_type := r.media_type
  , last_updated := now
  , failed := false }

/-- Lines 193-227: the season-details lookup for a TV match with a parsed
season number.  A thrown lookup, a non-200 code, or a missing season record
degrades to recording only the parsed season number; on success the returned
season number and name are recorded, the season name is appended to the
title only when the returned season number exceeds 1, and poster, overview
and air date override the series-level values only when truthy. -/
def applySeason (env : Env) (fi : FolderInfo) (tmdbId sn : Nat) : FolderInfo :=
  match env.seasonDetails tmdbId sn with
  | Except.error _ => { fi with season_number := some sn }
  | Except.ok sd =>
    match sd.season with
    | none => { fi with season_number := some sn }
    | some s =>
      if sd.code = 200 then
        let f1 := { fi with season_number := some s.season_number,
                            season_name := some s.name }
        let f2 := if 1 < s.season_number then
                    { f1 with title := f1.title ++ " " ++ s.name } else f1
        let f3 := if optStr s.poster_path ≠ "" then
                    { f2 with poster_path := s.poster_path } else f2
        let f4 := if s.overview ≠ "" then { f3 with overview := s.overview }
                  else f3
        if s.air_date ≠ "" then { f4 with release_date := s.air_date } else f4
      else { fi with season_number := some sn }

/-- How one resolution attempt ended: a successful match, search found
nothing usable (code not 200 or no result), or a thrown exception caught by
the per-folder catch block. -/
inductive ROutcome where
  | success
  | noMatch
  | exn
deriving DecidableEq, Repr

/-- The success/no-match split after a search that returned (did not throw):
lines 177-245 of the source. -/
def resolveOk (env : Env) (name : String) (sr : SearchResp) (q : String)
    (y : Option Nat) : FolderInfo × List Event × ROutcome :=
  match sr.result with
  | none => (placeholderInfo name env.now, [Event.searchCall q y],
             ROutcome.noMatch)
  | some r =>
    if sr.code = 200 then
      let fi := baseInfo name r env.now
      match (env.parseSeason name).seasonNumber with
      | some sn =>
        if r.media_type = "tv" ∧ sn ≠ 0 then
          (applySeason env fi r.id sn,
           [Event.searchCall q y, Event.seasonCall r.id sn], ROutcome.success)
        else (fi, [Event.searchCall q y], ROutcome.success)
      | none => (fi, [Event.searchCall q y], ROutcome.success)
    else (placeholderInfo name env.now, [Event.searchCall q y],
          ROutcome.noMatch)

/-- One resolution attempt for a new folder (the try body plus the catch of
lines 163-263): parse the title, call the search client, and classify the
outcome.  A thrown search is the caught-exception path. -/
def resolveFolder (env : Env) (name : String) :
    FolderInfo × List Event × ROutcome :=
  let q := searchArgsQ env name
  let y := searchArgsY env name
  match env.search q y with
  | Except.error _ => (placeholderInfo name env.now, [Event.searchCall q y],
                       ROutcome.exn)
  | Except.ok sr => resolveOk env name sr q y

/-- One iteration of the folder loop (lines 150-264): report progress with
the 1-based index, the total folder count and the folder name; skip folders
whose name already has an entry when clearMetaInfo is false; otherwise
generate a fresh key, resolve, write the entry, bump the matching counter,
and delay 300 ms - except on the caught-exception path, which has no delay. -/
def processOne (env : Env) (clear : Bool) (initialNames : List String)
    (total : Nat) (st : ScanState) (idx : Nat) (name : String) :
    ScanState × List Event :=
  let pev := Event.progress (idx + 1) total (some name)
  if clear = false ∧ name ∈ initialNames then
    ({ st with existingCount := st.existingCount + 1 }, [pev])
  else
    let key := freshKey name st.existingKeys
    let rf := resolveFolder env name
    let st' := { st with folders := insertAL st.folders key rf.1,
                         existingKeys := key :: st.existingKeys }
    match rf.2.2 with
    | ROutcome.success =>
      ({ st' with newCount := st.newCount + 1 },
       pev :: rf.2.1 ++ [Event.delay])
    | ROutcome.noMatch =>
      ({ st' with errorCount := st.errorCount + 1 },
       pev :: rf.2.1 ++ [Event.delay])
    | ROutcome.exn =>
      ({ st' with errorCount := st.errorCount + 1 }, pev :: rf.2.1)

/-- The whole folder loop, indexed from 0. -/
def processAll (env : Env) (clear : Bool) (initialNames : List String)
    (total : Nat) : ScanState → Nat → List FItem → ScanState × List Event
  | st, _, [] => (st, [])
  | st, idx, f :: rest =>
    let r1 := processOne env clear initialNames total st idx f.name
    let r2 := processAll env clear initialNames total r1.1 (idx + 1) rest
    (r2.1, r1.2 ++ r2.2)

/-- The reverse index of the diffing phase (lines 145-148): the folder names
of the entries in the loaded MetaInfo. -/
def scanNS (env : Env) (clear : Bool) : List String :=
  (loadMetaInfo env clear).folders.map (fun p => p.2.folderName)

/-- The initial loop state: the loaded entries, their keys as the used-key
set (line 143), and zeroed counters (lines 139-141). -/
def scanSt0 (env : Env) (clear : Bool) : ScanState :=
  { folders := (loadMetaInfo env clear).folders
  , existingKeys := (loadMetaInfo env clear).folders.map Prod.fst
  , newCount := 0, existingCount := 0, errorCount := 0 }

/-- The success continuation of performScan once listing returned the folder
list fs: load (pure, so ordered here without loss), diff, resolve every
folder, stamp last_refresh, write the store, refresh the cache, save config,
and complete the task with the counts (lines 137-284). -/
def scanBody (env : Env) (clear : Bool) (fs : List FItem) :
    List Event × ScanResult :=
  let pr := processAll env clear (scanNS env clear) fs.length
    (scanSt0 env clear) 0 fs
  let mi' : MetaInfo := { folders := pr.1.folders, last_refresh := env.now }
  (Event.progress 0 fs.length none ::
     (pr.2 ++ [Event.dbSet mi', Event.cacheInvalidate, Event.cacheSet mi',
               Event.configSave,
               Event.taskComplete fs.length pr.1.newCount pr.1.existingCount
                 pr.1.errorCount]),
   ScanResult.completed mi' fs.length pr.1.newCount pr.1.existingCount
     pr.1.errorCount)

/-- The events performScan emits before the listing loop: the initial
progress report (line 82) and the cache invalidation (line 112). -/
def scanPre : List Event := [Event.progress 0 0 none, Event.cacheInvalidate]

/-- performScan (lines 70-290): trace of collaborator calls plus the task
outcome.  none models the listing loop not terminating within fuel pages.
A listing error is caught by the outer catch, which marks the task failed;
no store write, cache repopulation or config save happens on that path. -/
def performScan (env : Env) (clear : Bool) (fuel : Nat) :
    Option (List Event × ScanResult) :=
  match listLoop env fuel 1 [] with
  | (_, none) => none
  | (levs, some (Except.error msg)) =>
    some (scanPre ++ levs ++ [Event.taskFail msg], ScanResult.failed msg)
  | (levs, some (Except.ok fs)) =>
    some (scanPre ++ levs ++ (scanBody env clear fs).1,
          (scanBody env clear fs).2)

/-- The store backend configuration read by startOpenListRefresh. -/
structure OLConfig where
  Enabled : Bool
  URL : String
  Username : String
  Password : String
deriving DecidableEq, Repr

/-- The slice of the admin config startOpenListRefresh checks. -/
structure AdminConfig where
  openListConfig : Option OLConfig
  TMDBApiKey : String
deriving DecidableEq, Repr

/-- Synchronous effects of startOpenListRefresh before it returns. -/
inductive StartEvent where
  | cleanupOldTasks
  | createScanTask
  | spawnScan
deriving DecidableEq, Repr

/-- startOpenListRefresh (lines 26-65): precondition checks, then cleanup of
old tasks, task creation, and the background spawn of performScan; returns
the created task id (modelled by the event list) or throws. -/
def startOpenListRefresh (cfg : AdminConfig) :
    List StartEvent × Except String Unit :=
  match cfg.openListConfig with
  | none => ([], Except.error ("OpenList 未配置或未启用"))
  | some oc =>
    if oc.Enabled = false ∨ oc.URL = "" ∨ oc.Username = "" ∨ oc.Password = ""
    then ([], Except.error ("OpenList 未配置或未启用"))
    else if cfg.TMDBApiKey = "" then
      ([], Except.error ("TMDB API Key 未配置"))
    else
      ([StartEvent.cleanupOldTasks, StartEvent.createScanTask,
        StartEvent.spawnScan], Except.ok ())

/-- startOpenListRefresh failed synchronously: no task-tracker call was made
and an error was thrown. -/
def failsCleanly (cfg : AdminConfig) : Prop :=
  (startOpenListRefresh cfg).1 = []
  ∧ ∃ msg, (startOpenListRefresh cfg).2 = Except.error msg

/-- The store content under the global metainfo key after replaying a trace
over an initial content: only dbSet events write it. -/
def storeAfter : List Event → Option MetaInfo → Option MetaInfo
  | [], init => init
  | Event.dbSet mi :: t, _ => storeAfter t (some mi)
  | _ :: t, init => storeAfter t init

/-- The listing loop terminates for some fuel. -/
def listingTerminates (env : Env) : Prop :=
  ∃ fuel, ((listLoop env fuel 1 []).2).isSome = true

/-- Number of directory items on page k. -/
def dirCount (env : Env) (k : Nat) : Nat :=
  ((env.pages k).content.filter (fun it => it.is_dir)).length

/-- Number of directory items on the m pages starting at page p. -/
def sumDirs (env : Env) : Nat → Nat → Nat
  | _, 0 => 0
  | p, m + 1 => dirCount env p + sumDirs env (p + 1) m

/-! ## Concrete environments used as witnesses and counterexamples -/

/-- An empty loop state, for instantiating per-iteration statements. -/
def stEmpty : ScanState :=
  { folders := [], existingKeys := [], newCount := 0, existingCount := 0,
    errorCount := 0 }

/-- A lister whose first page answers with code 500. -/
def envA : Env :=
  { pages := fun _ => { code := 500, total := 0, content := [] }
  , search := fun _ _ => Except.ok { code := 200, result := none }
  , seasonDetails := fun _ _ => Except.error ("unused")
  , parseSeason := fun n => { cleanTitle := n, seasonNumber := none,
                              year := none }
  , dbGet := Except.ok none
  , now := 0 }

/-- The trace of the scan over envA: listing aborts on page 1. -/
def trA : List Event :=
  [Event.progress 0 0 none, Event.cacheInvalidate, Event.listPage 1,
   Event.taskFail ("OpenList 列表获取失败")]

/-- A second failing-lister environment. -/
def envB : Env :=
  { pages := fun _ => { code := 404, total := 0, content := [] }
  , search := fun _ _ => Except.ok { code := 200, result := none }
  , seasonDetails := fun _ _ => Except.error ("unused")
  , parseSeason := fun n => { cleanTitle := n, seasonNumber := none,
                              year := none }
  , dbGet := Except.ok none
  , now := 1 }

/-- The trace of the scan over envB. -/
def trB : List Event :=
  [Event.progress 0 0 none, Event.cacheInvalidate, Event.listPage 1,
   Event.taskFail ("OpenList 列表获取失败")]

/-- One new folder B whose search throws: the caught-exception path. -/
def envOk : Env :=
  { pages := fun _ => { code := 200, total := 1,
                        content := [{ name := "B", is_dir := true }] }
  , search := fun _ _ => Except.error ("network down")
  , seasonDetails := fun _ _ => Except.error ("unused")
  , parseSeason := fun n => { cleanTitle := n, seasonNumber := none,
                              year := none }
  , dbGet := Except.ok none
  , now := 7 }

/-- The MetaInfo the envOk scan persists: one failed placeholder. -/
def miOk : MetaInfo :=
  { folders := [("B#", placeholderInfo "B" 7)], last_refresh := 7 }

/-- The trace of the scan over envOk: note the searchCall with no delay
event after it (the exception path skips the 300 ms delay). -/
def trOk : List Event :=
  [Event.progress 0 0 none, Event.cacheInvalidate, Event.listPage 1,
   Event.progress 0 1 none, Event.progress 1 1 (some ("B")),
   Event.searchCall ("B") none, Event.dbSet miOk, Event.cacheInvalidate,
   Event.cacheSet miOk, Event.configSave, Event.taskComplete 1 0 0 1]

/-- A pre-existing entry for folder A. -/
def fiA : FolderInfo :=
  { folderName := "A", tmdb_id := 77, title := "Title A"
  , poster_path := some ("pa"), release_date := "2019", overview := "ov A"
  , vote_average := 8, media_type := "tv", last_updated := 5
  , failed := false }

/-- A store already holding the entry for A under key kA. -/
def miC2 : MetaInfo := { folders := [("kA", fiA)], last_refresh := 5 }

/-- A listing that only contains folder A, which is already indexed. -/
def envC2w : Env :=
  { pages := fun _ => { code := 200, total := 1,
                        content := [{ name := "A", is_dir := true }] }
  , search := fun _ _ => Except.error ("never called")
  , seasonDetails := fun _ _ => Except.error ("unused")
  , parseSeason := fun n => { cleanTitle := n, seasonNumber := none,
                              year := none }
  , dbGet := Except.ok (some miC2)
  , now := 9 }

/-- Listing with existing folder A and new folder B whose search finds
nothing. -/
def envC6 : Env :=
  { pages := fun _ => { code := 200, total := 2,
                        content := [{ name := "A", is_dir := true },
                                    { name := "B", is_dir := true }] }
  , search := fun _ _ => Except.ok { code := 500, result := none }
  , seasonDetails := fun _ _ => Except.error ("unused")
  , parseSeason := fun n => { cleanTitle := n, seasonNumber := none,
                              year := none }
  , dbGet := Except.ok (some miC2)
  , now := 11 }

/-- The MetaInfo the envC6 scan persists. -/
def miC6 : MetaInfo :=
  { folders := [("kA", fiA), ("B###", placeholderInfo "B" 11)]
  , last_refresh := 11 }

/-- The trace of the scan over envC6: progress for B (position 5) precedes
the search call that handles B (position 6), and every progress report
passes total 2 (the discovered-folder count), although only one folder is
new. -/
def trC6 : List Event :=
  [Event.progress 0 0 none, Event.cacheInvalidate, Event.listPage 1,
   Event.progress 0 2 none, Event.progress 1 2 (some ("A")),
   Event.progress 2 2 (some ("B")), Event.searchCall ("B") none,
   Event.delay, Event.dbSet miC6, Event.cacheInvalidate,
   Event.cacheSet miC6, Event.configSave, Event.taskComplete 2 0 1 1]

/-- A TV search result for the season-override scenarios. -/
def r5 : TMDBResult :=
  { id := 42, title := some ("ShowX"), name := none
  , poster_path := some ("p1"), release_date := some ("2020-01-01")
  , first_air_date := none, overview := "series ov", vote_average := 7
  , media_type := "tv" }

/-- The search response wrapping r5. -/
def sr5 : SearchResp := { code := 200, result := some r5 }

/-- A season record with every override field present. -/
def s5 : SeasonRec :=
  { season_number := 2, name := "Season 2", poster_path := some ("p2")
  , overview := "s2 ov", air_date := "2021-02-02" }

/-- The season response wrapping s5. -/
def sd5 : SeasonResp := { code := 200, season := some s5 }

/-- Environment where folder ShowX S02 resolves to a TV match with a fully
populated season 2. -/
def env5 : Env :=
  { pages := fun _ => { code := 200, total := 1,
                        content := [{ name := "ShowX S02", is_dir := true }] }
  , search := fun _ _ => Except.ok sr5
  , seasonDetails := fun _ _ => Except.ok sd5
  , parseSeason := fun _ => { cleanTitle := "ShowX", seasonNumber := some 2,
                              year := none }
  , dbGet := Except.ok none
  , now := 3 }

/-- A season 2 record whose poster, overview and air date are all empty. -/
def s5x : SeasonRec :=
  { season_number := 2, name := "Season 2", poster_path := none
  , overview := "", air_date := "" }

/-- Environment where the season-details lookup succeeds but returns empty
poster, overview and air date. -/
def envC5x : Env :=
  { pages := fun _ => { code := 200, total := 1,
                        content := [{ name := "ShowX S02", is_dir := true }] }
  , search := fun _ _ => Except.ok sr5
  , seasonDetails := fun _ _ =>
      Except.ok { code := 200, season := some s5x }
  , parseSeason := fun _ => { cleanTitle := "ShowX", seasonNumber := some 2,
                              year := none }
  , dbGet := Except.ok none
  , now := 3 }

/-- A lister reporting total 1 whose only item (on page 1, and on no other
page) is a file, not a directory: fixed total, each item on exactly one
page. -/
def envC8x : Env :=
  { pages := fun k =>
      if k = 1 then
        { code := 200, total := 1,
          content := [{ name := "movie.mkv", is_dir := false }] }
      else { code := 200, total := 1, content := [] }
  , search := fun _ _ => Except.ok { code := 200, result := none }
  , seasonDetails := fun _ _ => Except.error ("unused")
  , parseSeason := fun n => { cleanTitle := n, seasonNumber := none,
                              year := none }
  , dbGet := Except.ok none
  , now := 0 }

/-- A lister whose single page holds one directory, matching its total. -/
def envC8w : Env :=
  { pages := fun _ => { code := 200, total := 1,
                        content := [{ name := "D", is_dir := true }] }
  , search := fun _ _ => Except.ok { code := 200, result := none }
  , seasonDetails := fun _ _ => Except.error ("unused")
  , parseSeason := fun n => { cleanTitle := n, seasonNumber := none,
                              year := none }
  , dbGet := Except.ok none
  , now := 0 }

/-- An admin config with no storage backend configured. -/
def cfgW : AdminConfig := { openListConfig := none, TMDBApiKey := "key" }

/-! ## Helper lemmas -/

theorem length_le_sum_of_mem {s : String} {l : List String} (h : s ∈ l) :
    s.length ≤ (l.map String.length).sum := by
  induction l with
  | nil => cases h
  | cons a t ih =>
    rcases List.mem_cons.mp h with h1 | h2
    · subst h1; simp
    · have := ih h2
      simp only [List.map_cons, List.sum_cons]
      omega

/-- The collision-avoidance contract of the key generator: the generated key
is never one of the keys already in use. -/
theorem freshKey_not_mem (name : String) (used : List String) :
    freshKey name used ∉ used := by
  intro h
  have h1 := length_le_sum_of_mem h
  have h2 : (freshKey name used).length
      = name.length + ((used.map String.length).sum + 1) := by
    simp [freshKey, String.length_append]
  omega

theorem mem_insertAL {l : List (String × FolderInfo)} {k : String}
    {v : FolderInfo} {p : String × FolderInfo} (h : p ∈ insertAL l k v) :
    p ∈ l ∨ p = (k, v) := by
  unfold insertAL at h
  split at h
  · rcases List.mem_map.mp h with ⟨q, hq, hqe⟩
    by_cases hk : q.1 = k
    · right; rw [if_pos hk] at hqe; exact hqe.symm
    · left; rw [if_neg hk] at hqe; exact hqe ▸ hq
  · rcases List.mem_append.mp h with h1 | h2
    · exact Or.inl h1
    · right; simpa using h2

theorem mem_insertAL_of_ne {l : List (String × FolderInfo)} {k : String}
    {v : FolderInfo} {p : String × FolderInfo} (hne : p.1 ≠ k) (hp : p ∈ l) :
    p ∈ insertAL l k v := by
  unfold insertAL
  split
  · exact List.mem_map.mpr ⟨p, hp, by rw [if_neg hne]⟩
  · exact List.mem_append_left _ hp

theorem storeAfter_eq_of_no_dbSet {tr : List Event}
    (h : ∀ mi, Event.dbSet mi ∉ tr) (init : Option MetaInfo) :
    storeAfter tr init = init := by
  induction tr generalizing init with
  | nil => rfl
  | cons e t ih =>
    have ht : ∀ mi, Event.dbSet mi ∉ t := fun mi hmi =>
      h mi (List.mem_cons_of_mem _ hmi)
    cases e with
    | dbSet mi => exact absurd (List.mem_cons_self _ _) (h mi)
    | listPage p => exact ih ht init
    | progress a b c => exact ih ht init
    | searchCall a b => exact ih ht init
    | seasonCall a b => exact ih ht init
    | delay => exact ih ht init
    | cacheInvalidate => exact ih ht init
    | cacheSet mi => exact ih ht init
    | configSave => exact ih ht init
    | taskComplete a b c d => exact ih ht init
    | taskFail m => exact ih ht init

theorem listLoop_succ (env : Env) (fuel page : Nat) (acc : List FItem) :
    listLoop env (fuel + 1) page acc
      = (if (env.pages page).code ≠ 200 then
           ([Event.listPage page], some (Except.error ("OpenList 列表获取失败")))
         else
           let acc' := acc ++ (env.pages page).content.filter
             (fun it => it.is_dir)
           if (env.pages page).total ≤ acc'.length then
             ([Event.listPage page], some (Except.ok acc'))
           else
             let r := listLoop env fuel (page + 1) acc'
             (Event.listPage page :: r.1, r.2)) := rfl

/-- Every event the listing loop emits is a page fetch. -/
theorem listLoop_events_pages (env : Env) :
    ∀ (fuel page : Nat) (acc : List FItem) (e : Event),
      e ∈ (listLoop env fuel page acc).1 → ∃ q, e = Event.listPage q := by
  intro fuel
  induction fuel with
  | zero => intro page acc e h; simp [listLoop] at h
  | succ n ih =>
    intro page acc e h
    rw [listLoop_succ] at h
    by_cases hc : (env.pages page).code ≠ 200
    · rw [if_pos hc] at h
      simp at h
      exact ⟨page, h⟩
    · rw [if_neg hc] at h
      simp only at h
      split at h
      · simp at h
        exact ⟨page, h⟩
      · rcases List.mem_cons.mp h with h1 | h2
        · exact ⟨page, h1⟩
        · exact ih (page + 1) _ e h2

/-- If the loop fetched a page whose code is not 200, its result is the
listing error. -/
theorem listLoop_bad (env : Env) (p : Nat)
    (hbad : (env.pages p).code ≠ 200) :
    ∀ (fuel page : Nat) (acc : List FItem),
      Event.listPage p ∈ (listLoop env fuel page acc).1 →
      (listLoop env fuel page acc).2
        = some (Except.error ("OpenList 列表获取失败")) := by
  intro fuel
  induction fuel with
  | zero => intro page acc h; simp [listLoop] at h
  | succ n ih =>
    intro page acc h
    rw [listLoop_succ] at h ⊢
    by_cases hc : (env.pages page).code ≠ 200
    · rw [if_pos hc]
    · rw [if_neg hc] at h ⊢
      simp only at h ⊢
      by_cases hbr : (env.pages page).total
          ≤ (acc ++ (env.pages page).content.filter
              (fun it => it.is_dir)).length
      · rw [if_pos hbr] at h
        simp at h
        subst h
        exact absurd hbad hc
      · rw [if_neg hbr] at h ⊢
        rcases List.mem_cons.mp h with h1 | h2
        · have : p = page := by injection h1
          rw [this] at hbad
          exact absurd hbad hc
        · exact ih (page + 1) _ h2

/-- Sufficient condition for the listing loop to finish: pages respond with
code 200 and a fixed total, and the directories on the first K pages already
reach that total; then K + 1 pages of fuel suffice and the accumulated
directory count reaches the total. -/
theorem listLoop_reaches (env : Env) (T : Nat)
    (hcode : ∀ k, (env.pages k).code = 200)
    (htot : ∀ k, (env.pages k).total = T) :
    ∀ (m p : Nat) (acc : List FItem),
      T ≤ acc.length + sumDirs env p m →
      ∃ fs, (listLoop env (m + 1) p acc).2 = some (Except.ok fs)
        ∧ T ≤ fs.length := by
  intro m
  induction m with
  | zero =>
    intro p acc hle
    rw [listLoop_succ]
    rw [if_neg (by simp [hcode p])]
    simp only
    rw [if_pos (by
      rw [htot p]
      simp only [List.length_append]
      simp only [sumDirs] at hle
      omega)]
    refine ⟨_, rfl, ?_⟩
    simp only [List.length_append]
    simp only [sumDirs] at hle
    omega
  | succ n ih =>
    intro p acc hle
    rw [listLoop_succ]
    rw [if_neg (by simp [hcode p])]
    simp only
    by_cases hbr : (env.pages p).total
        ≤ (acc ++ (env.pages p).content.filter (fun it => it.is_dir)).length
    · rw [if_pos hbr]
      refine ⟨_, rfl, ?_⟩
      rw [htot p] at hbr
      exact hbr
    · rw [if_neg hbr]
      apply ih (p + 1)
      simp only [List.length_append]
      simp only [sumDirs, dirCount] at hle ⊢
      omega

/-- The season override never touches the failed flag. -/
theorem applySeason_failed (env : Env) (fi : FolderInfo) (tmdbId sn : Nat) :
    (applySeason env fi tmdbId sn).failed = fi.failed := by
  unfold applySeason
  split
  · rfl
  · split
    · rfl
    · split
      · simp only [apply_ite FolderInfo.failed]
        split <;> split <;> split <;> split <;> rfl
      · rfl

/-- One resolution attempt produces either the failed placeholder or an
entry with failed = false. -/
theorem resolveFolder_shape (env : Env) (name : String) :
    (resolveFolder env name).1 = placeholderInfo name env.now
    ∨ (resolveFolder env name).1.failed = false := by
  simp only [resolveFolder, resolveOk]
  split
  · exact Or.inl rfl
  · split
    · exact Or.inl rfl
    · split
      · split
        · split
          · right
            rw [applySeason_failed]
            rfl
          · exact Or.inr rfl
        · exact Or.inr rfl
      · exact Or.inl rfl

/-- Invariant of one resolution attempt: an entry marked failed has
tmdb_id 0 and empty overview. -/
theorem resolveFolder_failed (env : Env) (name : String)
    (h : (resolveFolder env name).1.failed = true) :
    (resolveFolder env name).1.tmdb_id = 0
    ∧ (resolveFolder env name).1.overview = "" := by
  rcases resolveFolder_shape env name with hp | hf
  · rw [hp]
    exact ⟨rfl, rfl⟩
  · rw [hf] at h
    cases h

/-- The events of one resolution attempt: the search call, optionally
followed by the season-details call. -/
theorem resolveFolder_events (env : Env) (name : String) :
    (resolveFolder env name).2.1
      = [Event.searchCall (searchArgsQ env name) (searchArgsY env name)]
    ∨ ∃ tid sn, (resolveFolder env name).2.1
      = [Event.searchCall (searchArgsQ env name) (searchArgsY env name),
         Event.seasonCall tid sn] := by
  simp only [resolveFolder, resolveOk]
  split
  · exact Or.inl rfl
  · split
    · exact Or.inl rfl
    · split
      · split
        · split
          · exact Or.inr ⟨_, _, rfl⟩
          · exact Or.inl rfl
        · exact Or.inl rfl
      · exact Or.inl rfl

/-- resolveFolder reduces to resolveOk when the search client returns. -/
theorem resolveFolder_eq_ok (env : Env) (name : String) (sr : SearchResp)
    (hs : env.search (searchArgsQ env name) (searchArgsY env name)
      = Except.ok sr) :
    resolveFolder env name
      = resolveOk env name sr (searchArgsQ env name) (searchArgsY env name)
    := by
  simp only [resolveFolder]
  rw [hs]

/-- resolveFolder is the caught-exception path when the search client
throws. -/
theorem resolveFolder_eq_error (env : Env) (name : String) (msg : String)
    (hs : env.search (searchArgsQ env name) (searchArgsY env name)
      = Except.error msg) :
    resolveFolder env name
      = (placeholderInfo name env.now,
         [Event.searchCall (searchArgsQ env name) (searchArgsY env name)],
         ROutcome.exn) := by
  simp only [resolveFolder]
  rw [hs]

/-- When the search client returns without throwing, the outcome is never
the caught-exception one. -/
theorem resolveFolder_ok_outcome (env : Env) (name : String) (sr : SearchResp)
    (hs : env.search (searchArgsQ env name) (searchArgsY env name)
      = Except.ok sr) :
    (resolveFolder env name).2.2 ≠ ROutcome.exn := by
  rw [resolveFolder_eq_ok env name sr hs]
  simp only [resolveOk]
  split
  · simp
  · split
    · split
      · split <;> simp
      · simp
    · simp

/-- When the search client throws, the attempt is the caught-exception path
and the only event is the search call. -/
theorem resolveFolder_exn (env : Env) (name : String) (msg : String)
    (hs : env.search (searchArgsQ env name) (searchArgsY env name)
      = Except.error msg) :
    (resolveFolder env name).2.2 = ROutcome.exn
    ∧ (resolveFolder env name).2.1
      = [Event.searchCall (searchArgsQ env name) (searchArgsY env name)] := by
  rw [resolveFolder_eq_error env name msg hs]
  exact ⟨rfl, rfl⟩

/-- Every folder-loop iteration begins its events with the progress report
carrying the 1-based index, the total discovered-folder count, and the
folder name. -/
theorem processOne_events_cons (env : Env) (clear : Bool)
    (ns : List String) (total : Nat) (st : ScanState) (idx : Nat)
    (name : String) :
    ∃ t, (processOne env clear ns total st idx name).2
      = Event.progress (idx + 1) total (some name) :: t := by
  simp only [processOne]
  split
  · exact ⟨[], rfl⟩
  · split <;> exact ⟨_, rfl⟩

/-- One iteration either leaves the index and key set unchanged (the skip
path) or inserts one entry under a freshly generated key. -/
theorem processOne_state (env : Env) (clear : Bool) (ns : List String)
    (total : Nat) (st : ScanState) (idx : Nat) (name : String) :
    ((processOne env clear ns total st idx name).1.folders = st.folders
      ∧ (processOne env clear ns total st idx name).1.existingKeys
        = st.existingKeys)
    ∨ ∃ v, (processOne env clear ns total st idx name).1.folders
          = insertAL st.folders (freshKey name st.existingKeys) v
      ∧ (processOne env clear ns total st idx name).1.existingKeys
          = freshKey name st.existingKeys :: st.existingKeys := by
  simp only [processOne]
  split
  · exact Or.inl ⟨rfl, rfl⟩
  · split <;> exact Or.inr ⟨_, rfl, rfl⟩

/-- One iteration increments exactly one of the three counters. -/
theorem processOne_counts (env : Env) (clear : Bool) (ns : List String)
    (total : Nat) (st : ScanState) (idx : Nat) (name : String) :
    (processOne env clear ns total st idx name).1.existingCount
      + (processOne env clear ns total st idx name).1.newCount
      + (processOne env clear ns total st idx name).1.errorCount
    = st.existingCount + st.newCount + st.errorCount + 1 := by
  simp only [processOne]
  split
  · simp
    omega
  · split <;> simp <;> omega

/-- Any entry present after one iteration was already present before, or
satisfies the failed-placeholder invariant. -/
theorem processOne_added (env : Env) (clear : Bool) (ns : List String)
    (total : Nat) (st : ScanState) (idx : Nat) (name : String)
    (p : String × FolderInfo)
    (hp : p ∈ (processOne env clear ns total st idx name).1.folders) :
    p ∈ st.folders
    ∨ (p.2.failed = true → p.2.tmdb_id = 0 ∧ p.2.overview = "") := by
  have hres := resolveFolder_failed env name
  simp only [processOne] at hp
  split at hp
  · exact Or.inl hp
  · split at hp <;>
    · simp only at hp
      rcases mem_insertAL hp with h1 | h2
      · exact Or.inl h1
      · right
        intro hf
        rw [h2]
        refine hres ?_
        rw [h2] at hf
        exact hf

/-- The folder loop never fetches listing pages. -/
theorem processOne_no_page (env : Env) (clear : Bool) (ns : List String)
    (total : Nat) (st : ScanState) (idx : Nat) (name : String) (q : Nat) :
    Event.listPage q ∉ (processOne env clear ns total st idx name).2 := by
  intro h
  have hev := resolveFolder_events env name
  simp only [processOne] at h
  split at h
  · simp at h
  · split at h <;>
    · simp only at h
      rcases List.mem_cons.mp h with h1 | h2
      · exact absurd h1 (by simp)
      · rcases hev with he | ⟨tid, sn, he⟩ <;>
        · rw [he] at h2
          simp at h2

/-- Each processed folder bumps exactly one counter, so the three counters
sum to the number of folders processed. -/
theorem processAll_counts (env : Env) (clear : Bool) (ns : List String)
    (total : Nat) :
    ∀ (fs : List FItem) (st : ScanState) (idx : Nat),
      (processAll env clear ns total st idx fs).1.existingCount
        + (processAll env clear ns total st idx fs).1.newCount
        + (processAll env clear ns total st idx fs).1.errorCount
      = st.existingCount + st.newCount + st.errorCount + fs.length := by
  intro fs
  induction fs with
  | nil => intro st idx; simp [processAll]
  | cons f rest ih =>
    intro st idx
    have h1 := processOne_counts env clear ns total st idx f.name
    have h2 := ih (processOne env clear ns total st idx f.name).1 (idx + 1)
    simp only [processAll, List.length_cons]
    omega

/-- Entries already present, with their key among the used keys, survive the
whole folder loop untouched (freshly generated keys never collide). -/
theorem processAll_preserve (env : Env) (clear : Bool) (ns : List String)
    (total : Nat) :
    ∀ (fs : List FItem) (st : ScanState) (idx : Nat) (k : String)
      (fi : FolderInfo),
      (∀ p ∈ st.folders, p.1 ∈ st.existingKeys) →
      (k, fi) ∈ st.folders →
      (k, fi) ∈ (processAll env clear ns total st idx fs).1.folders := by
  intro fs
  induction fs with
  | nil =>
    intro st idx k fi _ hm
    simpa [processAll] using hm
  | cons f rest ih =>
    intro st idx k fi hinv hm
    simp only [processAll]
    apply ih
    · rcases processOne_state env clear ns total st idx f.name with
        ⟨hf, hk⟩ | ⟨v, hf, hk⟩
      · rw [hf, hk]
        exact hinv
      · rw [hf, hk]
        intro p hp
        rcases mem_insertAL hp with h1 | h2
        · exact List.mem_cons_of_mem _ (hinv p h1)
        · rw [h2]
          exact List.mem_cons_self _ _
    · rcases processOne_state env clear ns total st idx f.name with
        ⟨hf, _⟩ | ⟨v, hf, _⟩
      · rw [hf]
        exact hm
      · rw [hf]
        apply mem_insertAL_of_ne
        · intro he
          have he' : k = freshKey f.name st.existingKeys := he
          have hkmem : k ∈ st.existingKeys := hinv (k, fi) hm
          rw [he'] at hkmem
          exact freshKey_not_mem f.name st.existingKeys hkmem
        · exact hm

/-- Any entry present after the folder loop was present before the loop or
satisfies the failed-placeholder invariant. -/
theorem processAll_added (env : Env) (clear : Bool) (ns : List String)
    (total : Nat) :
    ∀ (fs : List FItem) (st : ScanState) (idx : Nat)
      (p : String × FolderInfo),
      p ∈ (processAll env clear ns total st idx fs).1.folders →
      p ∈ st.folders
      ∨ (p.2.failed = true → p.2.tmdb_id = 0 ∧ p.2.overview = "") := by
  intro fs
  induction fs with
  | nil =>
    intro st idx p hp
    simp only [processAll] at hp
    exact Or.inl hp
  | cons f rest ih =>
    intro st idx p hp
    simp only [processAll] at hp
    rcases ih (processOne env clear ns total st idx f.name).1 (idx + 1) p hp
      with h1 | h2
    · exact processOne_added env clear ns total st idx f.name p h1
    · exact Or.inr h2

/-- The folder loop fetches no listing pages. -/
theorem processAll_no_page (env : Env) (clear : Bool) (ns : List String)
    (total : Nat) :
    ∀ (fs : List FItem) (st : ScanState) (idx q : Nat),
      Event.listPage q ∉ (processAll env clear ns total st idx fs).2 := by
  intro fs
  induction fs with
  | nil =>
    intro st idx q h
    simp [processAll] at h
  | cons f rest ih =>
    intro st idx q h
    simp only [processAll, List.mem_append] at h
    rcases h with h1 | h2
    · exact processOne_no_page env clear ns total st idx f.name q h1
    · exact ih _ (idx + 1) q h2

/-- The folder loop reports progress for the i-th folder with the 1-based
index, the total passed in, and that folder's name. -/
theorem processAll_progress (env : Env) (clear : Bool) (ns : List String)
    (total : Nat) :
    ∀ (fs : List FItem) (st : ScanState) (idx i : Nat) (f : FItem),
      fs.get? i = some f →
      Event.progress (idx + i + 1) total (some f.name)
        ∈ (processAll env clear ns total st idx fs).2 := by
  intro fs
  induction fs with
  | nil =>
    intro st idx i f h
    simp at h
  | cons g rest ih =>
    intro st idx i f h
    cases i with
    | zero =>
      have hg : g = f := by simpa using h
      subst hg
      simp only [processAll]
      apply List.mem_append_left
      rcases processOne_events_cons env clear ns total st idx g.name with
        ⟨t, ht⟩
      rw [ht]
      exact List.mem_cons_self _ _
    | succ j =>
      have h' : rest.get? j = some f := by simpa using h
      simp only [processAll]
      apply List.mem_append_right
      have := ih (processOne env clear ns total st idx g.name).1 (idx + 1)
        j f h'
      have heq : idx + 1 + j + 1 = idx + (j + 1) + 1 := by omega
      rw [heq] at this
      exact this

/-! ## performScan case-analysis lemmas -/

theorem performScan_none (env : Env) (clear : Bool) (fuel : Nat)
    (levs : List Event) (h : listLoop env fuel 1 [] = (levs, none)) :
    performScan env clear fuel = none := by
  unfold performScan
  rw [h]

theorem performScan_err (env : Env) (clear : Bool) (fuel : Nat)
    (levs : List Event) (msg : String)
    (h : listLoop env fuel 1 [] = (levs, some (Except.error msg))) :
    performScan env clear fuel
      = some (scanPre ++ levs ++ [Event.taskFail msg],
              ScanResult.failed msg) := by
  unfold performScan
  rw [h]

theorem performScan_ok (env : Env) (clear : Bool) (fuel : Nat)
    (levs : List Event) (fs : List FItem)
    (h : listLoop env fuel 1 [] = (levs, some (Except.ok fs))) :
    performScan env clear fuel
      = some (scanPre ++ levs ++ (scanBody env clear fs).1,
              (scanBody env clear fs).2) := by
  unfold performScan
  rw [h]

theorem scanBody_fst (env : Env) (clear : Bool) (fs : List FItem) :
    (scanBody env clear fs).1
      = Event.progress 0 fs.length none ::
          ((processAll env clear (scanNS env clear) fs.length
              (scanSt0 env clear) 0 fs).2
            ++ [Event.dbSet
                  { folders := (processAll env clear (scanNS env clear)
                      fs.length (scanSt0 env clear) 0 fs).1.folders,
                    last_refresh := env.now },
                Event.cacheInvalidate,
                Event.cacheSet
                  { folders := (processAll env clear (scanNS env clear)
                      fs.length (scanSt0 env clear) 0 fs).1.folders,
                    last_refresh := env.now },
                Event.configSave,
                Event.taskComplete fs.length
                  (processAll env clear (scanNS env clear) fs.length
                    (scanSt0 env clear) 0 fs).1.newCount
                  (processAll env clear (scanNS env clear) fs.length
                    (scanSt0 env clear) 0 fs).1.existingCount
                  (processAll env clear (scanNS env clear) fs.length
                    (scanSt0 env clear) 0 fs).1.errorCount]) := rfl

theorem scanBody_snd (env : Env) (clear : Bool) (fs : List FItem) :
    (scanBody env clear fs).2
      = ScanResult.completed
          { folders := (processAll env clear (scanNS env clear) fs.length
              (scanSt0 env clear) 0 fs).1.folders, last_refresh := env.now }
          fs.length
          (processAll env clear (scanNS env clear) fs.length
            (scanSt0 env clear) 0 fs).1.newCount
          (processAll env clear (scanNS env clear) fs.length
            (scanSt0 env clear) 0 fs).1.existingCount
          (processAll env clear (scanNS env clear) fs.length
            (scanSt0 env clear) 0 fs).1.errorCount := rfl

/-- The success continuation fetches no listing pages. -/
theorem scanBody_no_page (env : Env) (clear : Bool) (fs : List FItem)
    (q : Nat) : Event.listPage q ∉ (scanBody env clear fs).1 := by
  intro h
  rw [scanBody_fst] at h
  rcases List.mem_cons.mp h with h1 | h2
  · exact absurd h1 (by simp)
  · rcases List.mem_append.mp h2 with h3 | h4
    · exact processAll_no_page env clear _ _ fs _ 0 q h3
    · simp at h4

/-- In every trace of the scan, any trace segment up to a page fetch already
contains the cache invalidation: the two fixed events before the listing
loop are the initial progress report and the invalidation. -/
theorem scanPre_first (rest : List Event) :
    ∀ (pfx sfx : List Event), scanPre ++ rest = pfx ++ sfx →
      (∃ p, Event.listPage p ∈ pfx) → Event.cacheInvalidate ∈ pfx := by
  intro pfx sfx heq hp
  cases pfx with
  | nil =>
    rcases hp with ⟨p, hp⟩
    simp at hp
  | cons a t =>
    cases t with
    | nil =>
      rcases hp with ⟨p, hp⟩
      simp only [scanPre, List.cons_append, List.nil_append,
        List.cons.injEq] at heq
      obtain ⟨ha, _⟩ := heq
      rw [← ha] at hp
      simp at hp
    | cons b t2 =>
      simp only [scanPre, List.cons_append, List.nil_append,
        List.cons.injEq] at heq
      obtain ⟨_, hb, _⟩ := heq
      rw [hb]
      simp

/-- C1: if any listing page the scan fetched answered with a code other
than 200, the scan aborts with the listing error: the task outcome is
failed with the listing-error message, no dbSet event occurs in the trace,
and replaying the trace over any initial store content leaves it
unchanged. -/
theorem c1_listing_failure_all_or_nothing (env : Env) (clear : Bool)
    (fuel : Nat) (tr : List Event) (out : ScanResult) (p : Nat)
    (hrun : performScan env clear fuel = some (tr, out))
    (hp : Event.listPage p ∈ tr)
    (hbad : (env.pages p).code ≠ 200) :
    (∀ mi, Event.dbSet mi ∉ tr)
    ∧ (∀ init, storeAfter tr init = init)
    ∧ out = ScanResult.failed ("OpenList 列表获取失败") := by
  rcases hll : listLoop env fuel 1 [] with ⟨levs, r⟩
  cases r with
  | none =>
    rw [performScan_none env clear fuel levs hll] at hrun
    cases hrun
  | some e =>
    cases e with
    | error msg =>
      rw [performScan_err env clear fuel levs msg hll] at hrun
      simp only [Option.some.injEq, Prod.mk.injEq] at hrun
      obtain ⟨htr, hout⟩ := hrun
      subst htr
      subst hout
      have hnos : ∀ mi,
          Event.dbSet mi ∉ scanPre ++ levs ++ [Event.taskFail msg] := by
        intro mi h
        rcases List.mem_append.mp h with h1 | h2
        · rcases List.mem_append.mp h1 with h3 | h4
          · simp [scanPre] at h3
          · rcases listLoop_events_pages env fuel 1 [] _
              (by rw [hll]; exact h4) with ⟨q, hq⟩
            simp at hq
        · simp at h2
      refine ⟨hnos, fun init => storeAfter_eq_of_no_dbSet hnos init, ?_⟩
      have hpl : Event.listPage p ∈ levs := by
        rcases List.mem_append.mp hp with h1 | h2
        · rcases List.mem_append.mp h1 with h3 | h4
          · simp [scanPre] at h3
          · exact h4
        · simp at h2
      have hres := listLoop_bad env p hbad fuel 1 []
        (by rw [hll]; exact hpl)
      rw [hll] at hres
      simp only [Option.some.injEq, Except.error.injEq] at hres
      rw [hres]
    | ok fs =>
      rw [performScan_ok env clear fuel levs fs hll] at hrun
      simp only [Option.some.injEq, Prod.mk.injEq] at hrun
      obtain ⟨htr, hout⟩ := hrun
      subst htr
      have hpl : Event.listPage p ∈ levs := by
        rcases List.mem_append.mp hp with h1 | h2
        · rcases List.mem_append.mp h1 with h3 | h4
          · simp [scanPre] at h3
          · exact h4
        · exact absurd h2 (scanBody_no_page env clear fs p)
      have hres := listLoop_bad env p hbad fuel 1 []
        (by rw [hll]; exact hpl)
      rw [hll] at hres
      simp at hres

/-- Witness for C1: a concrete scan whose only page answers 500. -/
theorem c1_witness :
    (∀ mi, Event.dbSet mi ∉ trA)
    ∧ (∀ init, storeAfter trA init = init)
    ∧ ScanResult.failed ("OpenList 列表获取失败")
        = ScanResult.failed ("OpenList 列表获取失败") :=
  c1_listing_failure_all_or_nothing envA false 1 trA
    (ScanResult.failed ("OpenList 列表获取失败")) 1 (by rfl) (by decide)
    (by decide)

/-- C10: in every scan trace the progress-cache invalidation happens before
any listing page is fetched (every trace segment containing a page fetch
already contains the invalidation), and a scan that fails never repopulates
the cache: no cacheSet event occurs in its trace even though it was already
invalidated. -/
theorem c10_cache_invalidated_before_listing (env : Env) (clear : Bool)
    (fuel : Nat) (tr : List Event) (out : ScanResult)
    (hrun : performScan env clear fuel = some (tr, out)) :
    (∀ pfx sfx, tr = pfx ++ sfx → (∃ p, Event.listPage p ∈ pfx) →
      Event.cacheInvalidate ∈ pfx)
    ∧ (∀ msg, out = ScanResult.failed msg →
        ∀ mi, Event.cacheSet mi ∉ tr) := by
  rcases hll : listLoop env fuel 1 [] with ⟨levs, r⟩
  cases r with
  | none =>
    rw [performScan_none env clear fuel levs hll] at hrun
    cases hrun
  | some e =>
    cases e with
    | error msg =>
      rw [performScan_err env clear fuel levs msg hll] at hrun
      simp only [Option.some.injEq, Prod.mk.injEq] at hrun
      obtain ⟨htr, hout⟩ := hrun
      subst htr
      subst hout
      constructor
      · intro pfx sfx heq hp
        exact scanPre_first (levs ++ [Event.taskFail msg]) pfx sfx
          (by rw [← heq, List.append_assoc]) hp
      · intro m _ mi h
        rcases List.mem_append.mp h with h1 | h2
        · rcases List.mem_append.mp h1 with h3 | h4
          · simp [scanPre] at h3
          · rcases listLoop_events_pages env fuel 1 [] _
              (by rw [hll]; exact h4) with ⟨q, hq⟩
            simp at hq
        · simp at h2
    | ok fs =>
      rw [performScan_ok env clear fuel levs fs hll] at hrun
      simp only [Option.some.injEq, Prod.mk.injEq] at hrun
      obtain ⟨htr, hout⟩ := hrun
      subst htr
      constructor
      · intro pfx sfx heq hp
        exact scanPre_first (levs ++ (scanBody env clear fs).1) pfx sfx
          (by rw [← heq, List.append_assoc]) hp
      · intro m hm
        rw [scanBody_snd] at hout
        rw [← hout] at hm
        cases hm

/-- Witness for C10: the scan over envB aborts on page 1; the invalidation
is in the trace segment ending at the page fetch, and no cacheSet occurs. -/
theorem c10_witness :
    Event.cacheInvalidate
      ∈ [Event.progress 0 0 none, Event.cacheInvalidate, Event.listPage 1]
    ∧ Event.cacheSet { folders := [], last_refresh := 0 } ∉ trB := by
  constructor
  · exact (c10_cache_invalidated_before_listing envB false 1 trB
      (ScanResult.failed ("OpenList 列表获取失败")) (by rfl)).1
      [Event.progress 0 0 none, Event.cacheInvalidate, Event.listPage 1]
      [Event.taskFail ("OpenList 列表获取失败")] (by rfl)
      ⟨1, by decide⟩
  · exact (c10_cache_invalidated_before_listing envB false 1 trB
      (ScanResult.failed ("OpenList 列表获取失败")) (by rfl)).2
      ("OpenList 列表获取失败") rfl { folders := [], last_refresh := 0 }

/-- C9: for every scan that completes, the reported counts satisfy
total = existing + new + errors, total equals the number of directories
accumulated across the listing pages, and the completion report with those
counts is in the trace. -/
theorem c9_count_consistency (env : Env) (clear : Bool) (fuel : Nat)
    (tr : List Event) (mi : MetaInfo) (T nw ex er : Nat)
    (levs : List Event) (fs : List FItem)
    (hrun : performScan env clear fuel
      = some (tr, ScanResult.completed mi T nw ex er))
    (hlist : listLoop env fuel 1 [] = (levs, some (Except.ok fs))) :
    T = ex + nw + er ∧ T = fs.length
    ∧ Event.taskComplete T nw ex er ∈ tr := by
  rw [performScan_ok env clear fuel levs fs hlist] at hrun
  simp only [Option.some.injEq, Prod.mk.injEq] at hrun
  obtain ⟨htr, hout⟩ := hrun
  rw [scanBody_snd] at hout
  simp only [ScanResult.completed.injEq] at hout
  obtain ⟨hmi, hT, hnw, hex, her⟩ := hout
  subst hT
  subst hnw
  subst hex
  subst her
  have hc := processAll_counts env clear (scanNS env clear) fs.length fs
    (scanSt0 env clear) 0
  rw [show (scanSt0 env clear).existingCount = 0 from rfl,
      show (scanSt0 env clear).newCount = 0 from rfl,
      show (scanSt0 env clear).errorCount = 0 from rfl] at hc
  refine ⟨by omega, rfl, ?_⟩
  subst htr
  apply List.mem_append_right
  rw [scanBody_fst]
  apply List.mem_cons_of_mem
  apply List.mem_append_right
  simp

/-- Witness for C9: the completed envOk scan reports 1 = 0 + 0 + 1. -/
theorem c9_witness :
    (1 : Nat) = 0 + 0 + 1
    ∧ (1 : Nat) = ([{ name := "B", is_dir := true }] : List FItem).length
    ∧ Event.taskComplete 1 0 0 1 ∈ trOk :=
  c9_count_consistency envOk false 1 trOk miOk 1 0 0 1 [Event.listPage 1]
    [{ name := "B", is_dir := true }] (by rfl) (by rfl)

/-- C2: with resetIndex false, an entry of the loaded MetaInfo survives the
scan unchanged, and the iteration handling a folder whose name is among the
loaded folder names only bumps the existing counter and reports progress -
it makes no search call and leaves the index untouched. -/
theorem c2_existing_fast_path (env : Env) (fuel : Nat) (tr : List Event)
    (mi' : MetaInfo) (T nw ex er : Nat) (k : String) (fi : FolderInfo)
    (ns : List String) (total idx : Nat) (st : ScanState) (name : String)
    (hrun : performScan env false fuel
      = some (tr, ScanResult.completed mi' T nw ex er))
    (hk : (k, fi) ∈ (loadMetaInfo env false).folders)
    (hname : name ∈ ns) :
    (k, fi) ∈ mi'.folders
    ∧ processOne env false ns total st idx name
        = ({ st with existingCount := st.existingCount + 1 },
           [Event.progress (idx + 1) total (some name)]) := by
  constructor
  · rcases hll : listLoop env fuel 1 [] with ⟨levs, r⟩
    cases r with
    | none =>
      rw [performScan_none env false fuel levs hll] at hrun
      cases hrun
    | some e =>
      cases e with
      | error msg =>
        rw [performScan_err env false fuel levs msg hll] at hrun
        simp at hrun
      | ok fs =>
        rw [performScan_ok env false fuel levs fs hll] at hrun
        simp only [Option.some.injEq, Prod.mk.injEq] at hrun
        obtain ⟨htr, hout⟩ := hrun
        rw [scanBody_snd] at hout
        simp only [ScanResult.completed.injEq] at hout
        obtain ⟨hmi, _, _, _, _⟩ := hout
        rw [← hmi]
        apply processAll_preserve
        · intro p hp
          exact List.mem_map.mpr ⟨p, hp, rfl⟩
        · exact hk
  · unfold processOne
    rw [if_pos ⟨rfl, hname⟩]

/-- Witness for C2: folder A is already indexed under kA; the scan keeps
the entry and the iteration for A only reports progress. -/
theorem c2_witness :
    ("kA", fiA) ∈ ({ folders := [("kA", fiA)], last_refresh := 9 }
      : MetaInfo).folders
    ∧ processOne envC2w false [("A" : String)] 1 stEmpty 0 "A"
        = ({ stEmpty with existingCount := stEmpty.existingCount + 1 },
           [Event.progress (0 + 1) 1 (some ("A"))]) :=
  c2_existing_fast_path envC2w 1
    [Event.progress 0 0 none, Event.cacheInvalidate, Event.listPage 1,
     Event.progress 0 1 none, Event.progress 1 1 (some ("A")),
     Event.dbSet { folders := [("kA", fiA)], last_refresh := 9 },
     Event.cacheInvalidate,
     Event.cacheSet { folders := [("kA", fiA)], last_refresh := 9 },
     Event.configSave, Event.taskComplete 1 0 1 0]
    { folders := [("kA", fiA)], last_refresh := 9 } 1 0 1 0 "kA" fiA
    [("A" : String)] 1 0 stEmpty "A" (by rfl) (by decide) (by decide)

/-- C3: every entry present in the persisted MetaInfo of a completed scan
that was not in the loaded MetaInfo satisfies the placeholder invariant:
if it is marked failed, its tmdb_id is 0 and its overview is empty. -/
theorem c3_failed_placeholder_invariant (env : Env) (clear : Bool)
    (fuel : Nat) (tr : List Event) (mi' : MetaInfo) (T nw ex er : Nat)
    (k : String) (fi : FolderInfo)
    (hrun : performScan env clear fuel
      = some (tr, ScanResult.completed mi' T nw ex er))
    (hmem : (k, fi) ∈ mi'.folders)
    (hnew : (k, fi) ∉ (loadMetaInfo env clear).folders)
    (hfail : fi.failed = true) :
    fi.tmdb_id = 0 ∧ fi.overview = "" := by
  rcases hll : listLoop env fuel 1 [] with ⟨levs, r⟩
  cases r with
  | none =>
    rw [performScan_none env clear fuel levs hll] at hrun
    cases hrun
  | some e =>
    cases e with
    | error msg =>
      rw [performScan_err env clear fuel levs msg hll] at hrun
      simp at hrun
    | ok fs =>
      rw [performScan_ok env clear fuel levs fs hll] at hrun
      simp only [Option.some.injEq, Prod.mk.injEq] at hrun
      obtain ⟨htr, hout⟩ := hrun
      rw [scanBody_snd] at hout
      simp only [ScanResult.completed.injEq] at hout
      obtain ⟨hmi, _, _, _, _⟩ := hout
      rw [← hmi] at hmem
      rcases processAll_added env clear (scanNS env clear) fs.length fs
        (scanSt0 env clear) 0 (k, fi) hmem with h1 | h2
      · exact absurd h1 hnew
      · exact h2 hfail

/-- Witness for C3: the placeholder entry the envOk scan writes for B. -/
theorem c3_witness :
    (placeholderInfo "B" 7).tmdb_id = 0
    ∧ (placeholderInfo "B" 7).overview = "" :=
  c3_failed_placeholder_invariant envOk false 1 trOk miOk 1 0 0 1 "B#"
    (placeholderInfo "B" 7) (by rfl) (by decide) (by decide) (by rfl)

theorem startRefresh_none (cfg : AdminConfig)
    (h : cfg.openListConfig = none) :
    startOpenListRefresh cfg
      = ([], Except.error ("OpenList 未配置或未启用")) := by
  unfold startOpenListRefresh
  rw [h]

theorem startRefresh_bad (cfg : AdminConfig) (oc : OLConfig)
    (h : cfg.openListConfig = some oc)
    (hb : oc.Enabled = false ∨ oc.URL = "" ∨ oc.Username = ""
      ∨ oc.Password = "") :
    startOpenListRefresh cfg
      = ([], Except.error ("OpenList 未配置或未启用")) := by
  unfold startOpenListRefresh
  rw [h]
  dsimp only
  rw [if_pos hb]

theorem startRefresh_nokey (cfg : AdminConfig) (oc : OLConfig)
    (h : cfg.openListConfig = some oc)
    (hb : ¬(oc.Enabled = false ∨ oc.URL = "" ∨ oc.Username = ""
      ∨ oc.Password = ""))
    (hk : cfg.TMDBApiKey = "") :
    startOpenListRefresh cfg
      = ([], Except.error ("TMDB API Key 未配置")) := by
  unfold startOpenListRefresh
  rw [h]
  dsimp only
  rw [if_neg hb, if_pos hk]

/-- C4: whenever a precondition is missing - no backend configured, backend
disabled, empty URL, username or password, or no TMDB api key - the entry
point throws synchronously: no cleanup runs, no task is created, and no
task id is returned. -/
theorem c4_preconditions_fail_synchronously (cfg : AdminConfig)
    (h : cfg.openListConfig = none
      ∨ (∃ oc, cfg.openListConfig = some oc
          ∧ (oc.Enabled = false ∨ oc.URL = "" ∨ oc.Username = ""
             ∨ oc.Password = ""))
      ∨ cfg.TMDBApiKey = "") :
    failsCleanly cfg := by
  unfold failsCleanly
  rcases h with h | ⟨oc, hoc, hbad⟩ | h
  · rw [startRefresh_none cfg h]
    exact ⟨rfl, _, rfl⟩
  · rw [startRefresh_bad cfg oc hoc hbad]
    exact ⟨rfl, _, rfl⟩
  · cases hc : cfg.openListConfig with
    | none =>
      rw [startRefresh_none cfg hc]
      exact ⟨rfl, _, rfl⟩
    | some oc =>
      by_cases hb : oc.Enabled = false ∨ oc.URL = "" ∨ oc.Username = ""
          ∨ oc.Password = ""
      · rw [startRefresh_bad cfg oc hc hb]
        exact ⟨rfl, _, rfl⟩
      · rw [startRefresh_nokey cfg oc hc hb h]
        exact ⟨rfl, _, rfl⟩

/-- Witness for C4: a config with no storage backend fails cleanly. -/
theorem c4_witness : failsCleanly cfgW :=
  c4_preconditions_fail_synchronously cfgW (Or.inl rfl)

/-- Field-level description of a successful season override: the returned
season number and name are always recorded, the name is appended to the
title only when the returned season number exceeds 1, and poster, overview
and air date replace the series-level values only when non-empty. -/
theorem applySeason_ok (env : Env) (fi : FolderInfo) (tmdbId sn : Nat)
    (sd : SeasonResp) (s : SeasonRec)
    (hsd : env.seasonDetails tmdbId sn = Except.ok sd)
    (hsc : sd.code = 200) (hss : sd.season = some s) :
    (applySeason env fi tmdbId sn).title
      = (if 1 < s.season_number then fi.title ++ " " ++ s.name
         else fi.title)
    ∧ (applySeason env fi tmdbId sn).poster_path
      = (if optStr s.poster_path ≠ "" then s.poster_path
         else fi.poster_path)
    ∧ (applySeason env fi tmdbId sn).overview
      = (if s.overview ≠ "" then s.overview else fi.overview)
    ∧ (applySeason env fi tmdbId sn).release_date
      = (if s.air_date ≠ "" then s.air_date else fi.release_date)
    ∧ (applySeason env fi tmdbId sn).season_number = some s.season_number
    ∧ (applySeason env fi tmdbId sn).season_name = some s.name
    ∧ (applySeason env fi tmdbId sn).failed = fi.failed
    ∧ (applySeason env fi tmdbId sn).tmdb_id = fi.tmdb_id := by
  unfold applySeason
  rw [hsd]
  dsimp only
  rw [hss]
  dsimp only
  rw [if_pos hsc]
  refine ⟨?_, ?_, ?_, ?_, ?_, ?_, ?_, ?_⟩ <;>
    simp [apply_ite FolderInfo.title, apply_ite FolderInfo.poster_path,
      apply_ite FolderInfo.overview, apply_ite FolderInfo.release_date,
      apply_ite FolderInfo.season_number, apply_ite FolderInfo.season_name,
      apply_ite FolderInfo.failed, apply_ite FolderInfo.tmdb_id]

/-- Counterexample for C5: for the folder ShowX S02 the season-details
lookup succeeds (code 200, season 2 named Season 2) but the returned season
has an empty overview; the stored entry keeps the series-level overview
instead of the season's value, so the season's overview value does not
override the series-level one. -/
theorem c5_counterexample :
    envC5x.seasonDetails 42 2 = Except.ok { code := 200, season := some s5x }
    ∧ s5x.overview = ""
    ∧ (resolveFolder envC5x "ShowX S02").1.overview = "series ov"
    ∧ (resolveFolder envC5x "ShowX S02").1.overview ≠ s5x.overview := by
  exact ⟨rfl, rfl, by rfl, by decide⟩

/-- C5 (amended): for a TV match with a parsed season number, when the
season-details lookup succeeds, the stored entry records the returned
season number and name; the title equals the base title with the season's
display name appended exactly when the returned season number exceeds 1
(unchanged for season 1); and the season's poster, overview and release
date override the series-level values only when they are non-empty - an
empty or missing season value leaves the series-level one in place. -/
theorem c5_amended_season_override (env : Env) (name : String) (sn : Nat)
    (sr : SearchResp) (r : TMDBResult) (sd : SeasonResp) (s : SeasonRec)
    (hsi : (env.parseSeason name).seasonNumber = some sn)
    (hsn : sn ≠ 0)
    (hs : env.search (searchArgsQ env name) (searchArgsY env name)
      = Except.ok sr)
    (hres : sr.result = some r)
    (hcode : sr.code = 200)
    (htv : r.media_type = "tv")
    (hsd : env.seasonDetails r.id sn = Except.ok sd)
    (hsc : sd.code = 200)
    (hss : sd.season = some s) :
    (resolveFolder env name).1.title
      = (if 1 < s.season_number then
           (baseInfo name r env.now).title ++ " " ++ s.name
         else (baseInfo name r env.now).title)
    ∧ (resolveFolder env name).1.poster_path
      = (if optStr s.poster_path ≠ "" then s.poster_path
         else (baseInfo name r env.now).poster_path)
    ∧ (resolveFolder env name).1.overview
      = (if s.overview ≠ "" then s.overview
         else (baseInfo name r env.now).overview)
    ∧ (resolveFolder env name).1.release_date
      = (if s.air_date ≠ "" then s.air_date
         else (baseInfo name r env.now).release_date)
    ∧ (resolveFolder env name).1.season_number = some s.season_number
    ∧ (resolveFolder env name).1.season_name = some s.name
    ∧ (resolveFolder env name).1.failed = false
    ∧ (resolveFolder env name).1.tmdb_id = r.id := by
  have hro : resolveFolder env name
      = (applySeason env (baseInfo name r env.now) r.id sn,
         [Event.searchCall (searchArgsQ env name) (searchArgsY env name),
          Event.seasonCall r.id sn], ROutcome.success) := by
    rw [resolveFolder_eq_ok env name sr hs]
    simp only [resolveOk]
    rw [hres]
    dsimp only
    rw [if_pos hcode, hsi]
    dsimp only
    rw [if_pos ⟨htv, hsn⟩]
  rw [hro]
  obtain ⟨h1, h2, h3, h4, h5, h6, h7, h8⟩ :=
    applySeason_ok env (baseInfo name r env.now) r.id sn sd s hsd hsc hss
  refine ⟨h1, h2, h3, h4, h5, h6, ?_, ?_⟩
  · rw [h7]
    rfl
  · rw [h8]
    rfl

/-- Witness for the amended C5: ShowX S02 resolves to a TV match whose
season 2 has every override field populated. -/
theorem c5_witness :
    (resolveFolder env5 "ShowX S02").1.title
      = (if 1 < s5.season_number then
           (baseInfo "ShowX S02" r5 env5.now).title ++ " " ++ s5.name
         else (baseInfo "ShowX S02" r5 env5.now).title)
    ∧ (resolveFolder env5 "ShowX S02").1.poster_path
      = (if optStr s5.poster_path ≠ "" then s5.poster_path
         else (baseInfo "ShowX S02" r5 env5.now).poster_path)
    ∧ (resolveFolder env5 "ShowX S02").1.overview
      = (if s5.overview ≠ "" then s5.overview
         else (baseInfo "ShowX S02" r5 env5.now).overview)
    ∧ (resolveFolder env5 "ShowX S02").1.release_date
      = (if s5.air_date ≠ "" then s5.air_date
         else (baseInfo "ShowX S02" r5 env5.now).release_date)
    ∧ (resolveFolder env5 "ShowX S02").1.season_number
      = some s5.season_number
    ∧ (resolveFolder env5 "ShowX S02").1.season_name = some s5.name
    ∧ (resolveFolder env5 "ShowX S02").1.failed = false
    ∧ (resolveFolder env5 "ShowX S02").1.tmdb_id = r5.id :=
  c5_amended_season_override env5 "ShowX S02" 2 sr5 r5 sd5 s5 rfl
    (by decide) rfl rfl rfl rfl rfl rfl rfl

/-- Counterexample for C6: in the envC6 scan the completed counts show one
new-folder attempt (new 0 + errors 1) out of two discovered folders, yet
every progress report passes total 2, never 1, and the progress report for
folder B (trace position 5) precedes the search call that resolves B
(trace position 6) - so progress is neither reported after the item is
handled nor with the new-folder count. -/
theorem c6_counterexample :
    performScan envC6 false 1
      = some (trC6, ScanResult.completed miC6 2 0 1 1)
    ∧ trC6.get? 5 = some (Event.progress 2 2 (some ("B")))
    ∧ trC6.get? 6 = some (Event.searchCall ("B") none)
    ∧ (∀ cur item, Event.progress cur 1 item ∉ trC6) := by
  refine ⟨by rfl, rfl, rfl, ?_⟩
  intro cur item h
  simp [trC6] at h

/-- C6 (amended): for every discovered folder the orchestrator reports
progress with the 1-based index, the count of all discovered folders (not
only the new ones), and the folder's name; the report is the first event of
the item's handling, i.e. it happens before - not after - the item is
resolved or skipped. -/
theorem c6_amended_progress_reports (env : Env) (clear : Bool) (fuel : Nat)
    (tr : List Event) (res : ScanResult) (levs : List Event)
    (fs : List FItem) (i : Nat) (f : FItem) (ns : List String)
    (total idx : Nat) (st : ScanState) (name : String)
    (hrun : performScan env clear fuel = some (tr, res))
    (hlist : listLoop env fuel 1 [] = (levs, some (Except.ok fs)))
    (hi : fs.get? i = some f) :
    Event.progress (i + 1) fs.length (some f.name) ∈ tr
    ∧ ((processOne env clear ns total st idx name).2).head?
        = some (Event.progress (idx + 1) total (some name)) := by
  constructor
  · rw [performScan_ok env clear fuel levs fs hlist] at hrun
    simp only [Option.some.injEq, Prod.mk.injEq] at hrun
    obtain ⟨htr, _⟩ := hrun
    subst htr
    apply List.mem_append_right
    rw [scanBody_fst]
    apply List.mem_cons_of_mem
    apply List.mem_append_left
    have hm := processAll_progress env clear (scanNS env clear) fs.length fs
      (scanSt0 env clear) 0 i f hi
    rw [show (0 : Nat) + i + 1 = i + 1 from by omega] at hm
    exact hm
  · rcases processOne_events_cons env clear ns total st idx name with ⟨t, ht⟩
    rw [ht]
    rfl

/-- Witness for the amended C6: folder B is the second of two discovered
folders; its progress report carries index 2, total 2 and name B, and a
fresh iteration's first event is its progress report. -/
theorem c6_witness :
    Event.progress (1 + 1)
      ([{ name := "A", is_dir := true }, { name := "B", is_dir := true }]
        : List FItem).length
      (some (({ name := "B", is_dir := true } : FItem).name)) ∈ trC6
    ∧ ((processOne envC6 false [] 1 stEmpty 0 "X").2).head?
        = some (Event.progress (0 + 1) 1 (some ("X"))) :=
  c6_amended_progress_reports envC6 false 1 trC6
    (ScanResult.completed miC6 2 0 1 1) [Event.listPage 1]
    [{ name := "A", is_dir := true }, { name := "B", is_dir := true }]
    1 { name := "B", is_dir := true } [] 1 0 stEmpty "X" (by rfl) (by rfl)
    (by rfl)

/-- Counterexample for C7: in the envOk scan the only folder's resolution
ends in a caught exception (the search client throws); the search call is
in the trace but no delay event occurs at all, so not every resolution
attempt is followed by the 300 ms delay. -/
theorem c7_counterexample :
    performScan envOk false 1
      = some (trOk, ScanResult.completed miOk 1 0 0 1)
    ∧ Event.searchCall ("B") none ∈ trOk
    ∧ Event.delay ∉ trOk := by
  exact ⟨by rfl, by decide, by decide⟩

/-- C7 (amended): a resolution attempt is followed by the fixed 300 ms
delay exactly when the search client returns without throwing (success or
no-match placeholder); on the caught-exception path the delay is skipped -
the iteration's events then contain no delay at all. -/
theorem c7_amended_delay (env : Env) (clear : Bool) (ns : List String)
    (total : Nat) (st : ScanState) (idx : Nat) (name : String)
    (hskip : ¬(clear = false ∧ name ∈ ns)) :
    ((∃ sr, env.search (searchArgsQ env name) (searchArgsY env name)
        = Except.ok sr) →
      ((processOne env clear ns total st idx name).2).getLast?
        = some Event.delay)
    ∧ ((∃ msg, env.search (searchArgsQ env name) (searchArgsY env name)
        = Except.error msg) →
      Event.delay ∉ (processOne env clear ns total st idx name).2) := by
  constructor
  · rintro ⟨sr, hs⟩
    have hne := resolveFolder_ok_outcome env name sr hs
    simp only [processOne]
    rw [if_neg hskip]
    cases ho : (resolveFolder env name).2.2 with
    | success =>
      simp only [ho]
      exact List.getLast?_concat _
    | noMatch =>
      simp only [ho]
      exact List.getLast?_concat _
    | exn => exact absurd ho hne
  · rintro ⟨msg, hs⟩
    obtain ⟨ho, hev⟩ := resolveFolder_exn env name msg hs
    simp only [processOne]
    rw [if_neg hskip]
    simp only [ho]
    rw [hev]
    simp

/-- Witness for the amended C7: a returning search ends the iteration's
events with the delay. -/
theorem c7_witness :
    ((processOne env5 true [] 1 stEmpty 0 "ShowX S02").2).getLast?
      = some Event.delay :=
  (c7_amended_delay env5 true [] 1 stEmpty 0 "ShowX S02" (by simp)).1
    ⟨sr5, rfl⟩

theorem envC8x_loop : ∀ (fuel p : Nat),
    (listLoop envC8x fuel p []).2 = none := by
  intro fuel
  induction fuel with
  | zero => intro p; rfl
  | succ n ih =>
    intro p
    rw [listLoop_succ]
    have hcode : ¬((envC8x.pages p).code ≠ 200) := by
      by_cases hp : p = 1 <;> simp [envC8x, hp]
    rw [if_neg hcode]
    have hfil : (envC8x.pages p).content.filter (fun it => it.is_dir)
        = [] := by
      by_cases hp : p = 1
      · rw [hp]; rfl
      · simp only [envC8x]
        rw [if_neg hp]
        rfl
    have htot : (envC8x.pages p).total = 1 := by
      by_cases hp : p = 1 <;> simp [envC8x, hp]
    simp only [hfil, htot, List.append_nil]
    rw [if_neg (by simp)]
    exact ih (p + 1)

/-- Counterexample for C8: envC8x reports a fixed total (1) with code 200
on every page and returns its single item on exactly one page (page 1),
but that item is a file; the directory-filtered count never reaches the
total and the listing loop does not terminate for any amount of fuel. -/
theorem c8_counterexample :
    (∀ k, (envC8x.pages k).code = 200)
    ∧ (∀ k, (envC8x.pages k).total = 1)
    ∧ ¬ listingTerminates envC8x := by
  refine ⟨?_, ?_, ?_⟩
  · intro k
    by_cases hk : k = 1 <;> simp [envC8x, hk]
  · intro k
    by_cases hk : k = 1 <;> simp [envC8x, hk]
  · rintro ⟨fuel, h⟩
    rw [envC8x_loop fuel 1] at h
    simp at h

/-- C8 (amended): the listing loop terminates whenever every page responds
with code 200 and a fixed total T and the directories on the first K pages
(for some K) already number at least T - in particular whenever every item
counted in the total is a directory appearing on exactly one page; then
K + 1 page fetches suffice and the accumulated directory count reaches T.
(With non-directory items counted in the total the loop need not terminate;
see the counterexample.) -/
theorem c8_amended_listing_terminates (env : Env) (T K : Nat)
    (hcode : ∀ k, (env.pages k).code = 200)
    (htot : ∀ k, (env.pages k).total = T)
    (hreach : T ≤ sumDirs env 1 K) :
    ∃ fs, (listLoop env (K + 1) 1 []).2 = some (Except.ok fs)
      ∧ T ≤ fs.length := by
  exact listLoop_reaches env T hcode htot K 1 [] (by simpa using hreach)

/-- Witness for the amended C8: one page holding one directory, total 1. -/
theorem c8_witness :
    ∃ fs, (listLoop envC8w 2 1 []).2 = some (Except.ok fs)
      ∧ 1 ≤ fs.length :=
  c8_amended_listing_terminates envC8w 1 1 (fun _ => rfl) (fun _ => rfl)
    (by decide)

end OpenListRefresh
